import Mathlib

/-!
Formal model of the content-engine topic scoring service and topic review
workflow, shallowly embedded from:

* `src/backend/src/content/scoring_service.py` (`ScoringService`)
* `src/backend/src/jobs/topic_scoring_job.py` (`TopicScoringJob.score_topics`)
* `src/backend/src/cli/reviewers/topic_reviewer.py` (`TopicReviewer`)

Modelling conventions:

* Python floats are modelled as rationals (`ℚ`) where the code is purely
  arithmetical, and as reals (`ℝ`) where the code calls transcendental
  functions (`math.exp`, `math.log`, `math.log10`).
* Python exceptions are modelled with `Except`; `dict` keys that may be
  absent (or `None`) are modelled with `Option`.
* Methods that read mutable object state take the object as an explicit
  argument; methods that could mutate it return the updated object.
* Human-readable reasoning strings returned alongside scores are not
  modelled: no claim mentions them.
-/

namespace ContentEngine

/-- Python exceptions raised by `ScoringService.calculate_composite_score`:
`KeyError` from `normalized_weights["recency"]` (etc.) when a key is absent,
`ZeroDivisionError` from `normalized_weights.get(key, 0.0) / weight_sum`. -/
inductive PyError where
  | keyError
  | zeroDivision
deriving DecidableEq

/-- The scoring weight dictionary.  Only the three keys read by
`calculate_composite_score` are relevant; each may be absent (`none`),
as Python dicts are not required to carry all keys. -/
structure WeightDict where
  recency : Option ℚ
  velocity : Option ℚ
  audience_fit : Option ℚ
deriving DecidableEq

/-- `DEFAULT_WEIGHTS = {"recency": 0.3, "velocity": 0.4, "audience_fit": 0.3}`
(scoring_service.py lines 30-34). -/
def DEFAULT_WEIGHTS : WeightDict :=
  { recency := some (3/10), velocity := some (4/10), audience_fit := some (3/10) }

/-- `PLATFORM_MAX_ENGAGEMENT` (scoring_service.py lines 38-43), as a partial
map from platform name to max engagement; `none` models an absent key (the
code then falls back to the default `100` via `.get(platform, 100)`). -/
def PLATFORM_MAX_ENGAGEMENT : String → Option ℤ := fun p =>
  if p = "reddit" then some 1000
  else if p = "hackernews" then some 500
  else if p = "rss" then some 0
  else if p = "manual" then some 0
  else none

/-- The mutable state of a `ScoringService` instance read by the methods
modelled here: `self.weights` and `self.platform_max`. -/
structure ScoringService where
  weights : WeightDict
  platform_max : String → Option ℤ

/-- A `ScoringService()` built with all-default configuration. -/
def defaultService : ScoringService :=
  { weights := DEFAULT_WEIGHTS, platform_max := PLATFORM_MAX_ENGAGEMENT }

/-- The value computed by `ScoringService.calculate_composite_score`
(scoring_service.py lines 600-645) from the weight dict and the four
component inputs.

Faithful to the source: `weight_sum` sums `self.weights.get(k, 0.0)` over the
three component keys; if `abs(weight_sum - 1.0) > 0.01` each key of a local
copy is normalized by `weight_sum` (raising `ZeroDivisionError` when
`weight_sum == 0`); otherwise the copy is indexed directly
(`normalized_weights["recency"]` etc.), raising `KeyError` when a key is
absent.  The weighted sum plus the integrity penalty is clamped with
`max(0.0, min(1.0, final_score))`. -/
def composite_value (w : WeightDict)
    (recency velocity audience_fit integrity_penalty : ℚ) : Except PyError ℚ :=
  let weight_sum := w.recency.getD 0 + w.velocity.getD 0 + w.audience_fit.getD 0
  if 1/100 < |weight_sum - 1| then
    if weight_sum = 0 then Except.error PyError.zeroDivision
    else
      let wr := w.recency.getD 0 / weight_sum
      let wv := w.velocity.getD 0 / weight_sum
      let wa := w.audience_fit.getD 0 / weight_sum
      Except.ok (max 0 (min 1
        (wr * recency + wv * velocity + wa * audience_fit + integrity_penalty)))
  else
    match w.recency, w.velocity, w.audience_fit with
    | some wr, some wv, some wa =>
        Except.ok (max 0 (min 1
          (wr * recency + wv * velocity + wa * audience_fit + integrity_penalty)))
    | _, _, _ => Except.error PyError.keyError

/-- `ScoringService.calculate_composite_score`, threading the instance state
explicitly.  The method only ever mutates `normalized_weights`, a local
`self.weights.copy()`, and never assigns to `self`, so the instance state is
returned unchanged alongside the computed value. -/
def calculate_composite_score (svc : ScoringService)
    (recency velocity audience_fit integrity_penalty : ℚ) :
    ScoringService × Except PyError ℚ :=
  (svc, composite_value svc.weights recency velocity audience_fit integrity_penalty)

/-- C2 counterexample: an engine constructed with the (non-empty, hence kept
verbatim by `__init__`) weight dict `{"velocity": 1.0}` has `weight_sum = 1`,
so no normalization is triggered, and `normalized_weights["recency"]` raises
`KeyError` instead of returning a composite score in `[0, 1]`. -/
theorem composite_score_raises_on_missing_key :
    (calculate_composite_score
        { weights := { recency := none, velocity := some 1, audience_fit := none },
          platform_max := PLATFORM_MAX_ENGAGEMENT } 1 1 1 0).2
      = Except.error PyError.keyError := by
  simp [calculate_composite_score, composite_value]

/-- C2 (amended): for component inputs in their valid ranges and any weight
dict that carries all three component keys with a nonzero key sum,
`calculate_composite_score` raises nothing and returns a value in `[0, 1]`
(weight dicts whose sum deviates from 1.0 by more than 0.01 are normalized on
a local copy first). -/
theorem composite_score_in_unit_interval (svc : ScoringService)
    (wr wv wa r v a ip : ℚ)
    (hwr : svc.weights.recency = some wr) (hwv : svc.weights.velocity = some wv)
    (hwa : svc.weights.audience_fit = some wa) (hsum : wr + wv + wa ≠ 0)
    (hr0 : 0 ≤ r) (hr1 : r ≤ 1) (hv0 : 0 ≤ v) (hv1 : v ≤ 1)
    (ha0 : 0 ≤ a) (ha1 : a ≤ 1) (hip0 : -(1/2) ≤ ip) (hip1 : ip ≤ 0) :
    ∃ q, (calculate_composite_score svc r v a ip).2 = Except.ok q ∧
      0 ≤ q ∧ q ≤ 1 := by
  simp only [calculate_composite_score, composite_value, hwr, hwv, hwa,
    Option.getD_some]
  split <;>
    exact ⟨_, rfl, le_max_left _ _, max_le (by norm_num) (min_le_left _ _)⟩

/-- Witness for `composite_score_in_unit_interval` at the default weights and
concrete component inputs. -/
theorem composite_score_in_unit_interval_witness :
    ∃ q, (calculate_composite_score defaultService 1 1 1 0).2 = Except.ok q ∧
      0 ≤ q ∧ q ≤ 1 :=
  composite_score_in_unit_interval defaultService (3/10) (4/10) (3/10) 1 1 1 0
    rfl rfl rfl (by norm_num) (by norm_num) (by norm_num) (by norm_num)
    (by norm_num) (by norm_num) (by norm_num) (by norm_num) (by norm_num)

/-- A dynamically-typed Python value occupying the `"penalty"` slot of a JSON
object or of a cached result dict: either a number (`int`/`float`, including
`bool`, modelled as `ℚ`) or some non-numeric value. -/
inductive PyVal where
  | num (q : ℚ)
  | nonNum (tag : String)
deriving DecidableEq

/-- Outcome of `ScoringService._get_cached_result(topic, "integrity")`
(scoring_service.py lines 122-143), as determined by the topic's
`raw_payload["_scoring_cache"]` content:

* `absent` — no cache entry, or the entry is stale (≥ 24 hours old);
* `malformed` — `datetime.fromisoformat` raises on the `cached_at` field;
* `found p` — a fresh entry whose result dict has `p` in its `"penalty"`
  slot (`none` when the key is missing). -/
inductive CacheLookup where
  | absent
  | malformed
  | found (penalty : Option PyVal)
deriving DecidableEq

/-- Outcome of the LLM call inside
`ScoringService._calculate_integrity_penalty_llm` (scoring_service.py lines
475-544):

* `unavailable` — `_get_openai_service()` returned `None` (LLM disabled or
  initialization failed);
* `failure` — the chat call or `json.loads` raised;
* `response p` — a parsed JSON object with `p` in its `"penalty"` slot
  (`none` when the key is missing, defaulted to `0.0` by
  `result.get("penalty", 0.0)`). -/
inductive LLMReply where
  | unavailable
  | failure
  | response (penalty : Option PyVal)
deriving DecidableEq

/-- The penalty slot of `_calculate_integrity_penalty_llm`'s return value:
`none` models the `(None, None, None)` sentinel (LLM unavailable, call
failure, or `ValueError` on a non-numeric penalty, all caught in-function);
a numeric penalty outside `[-0.5, 0.0]` is clamped with
`max(-0.5, min(0.0, float(penalty)))`, an in-range one returned as-is. -/
def integrity_penalty_llm : LLMReply → Option ℚ
  | LLMReply.unavailable => none
  | LLMReply.failure => none
  | LLMReply.response p =>
      match p.getD (PyVal.num 0) with
      | PyVal.num q =>
          if -(1/2) ≤ q ∧ q ≤ 0 then some q
          else some (max (-(1/2)) (min 0 q))
      | PyVal.nonNum _ => none

/-- `ScoringService.calculate_integrity_penalty` (scoring_service.py lines
546-559): the synchronous version always returns a zero penalty. -/
def calculate_integrity_penalty : ℚ × String :=
  (0, "Integrity checking via LLM (use async method)")

/-- `ScoringService.calculate_integrity_penalty_async` (scoring_service.py
lines 561-598).  With `use_cache` set, a fresh cache hit returns
`cached.get("penalty", 0.0)` verbatim — note: with no clamping; a raise
inside the cache lookup is caught by the outer handler, which returns `0.0`.
Otherwise the LLM value is returned when available, else the `0.0`
fallback. -/
def calculate_integrity_penalty_async (use_cache : Bool) (cache : CacheLookup)
    (llm : LLMReply) : PyVal :=
  if use_cache then
    match cache with
    | CacheLookup.malformed => PyVal.num 0
    | CacheLookup.found p => p.getD (PyVal.num 0)
    | CacheLookup.absent =>
        match integrity_penalty_llm llm with
        | some q => PyVal.num q
        | none => PyVal.num 0
  else
    match integrity_penalty_llm llm with
    | some q => PyVal.num q
    | none => PyVal.num 0

/-- A penalty slot value that is a number in `[-0.5, 0.0]`. -/
def penaltyInRange : PyVal → Prop
  | PyVal.num q => -(1/2) ≤ q ∧ q ≤ 0
  | PyVal.nonNum _ => False

instance : DecidablePred penaltyInRange := fun v =>
  match v with
  | PyVal.num q => inferInstanceAs (Decidable (-(1/2) ≤ q ∧ q ≤ 0))
  | PyVal.nonNum _ => inferInstanceAs (Decidable False)

/-- C3 counterexample: a fresh cached result whose stored penalty is `5.0` is
returned by `calculate_integrity_penalty_async` without clamping, so the
output is not in `[-0.5, 0.0]`. -/
theorem integrity_penalty_cached_out_of_range :
    ¬ penaltyInRange
      (calculate_integrity_penalty_async true
        (CacheLookup.found (some (PyVal.num 5))) LLMReply.unavailable) := by
  norm_num [calculate_integrity_penalty_async, penaltyInRange]

/-- C3 (amended): for every LLM reply (including adversarial, out-of-range,
or malformed penalties) the async integrity penalty is a number in
`[-0.5, 0.0]` — out-of-range LLM values are clamped and failures yield `0.0`
— provided every fresh cache hit stores a numeric penalty already in
`[-0.5, 0.0]` (cached penalties are returned as stored, without clamping);
the synchronous variant always returns `0.0`. -/
theorem integrity_penalty_in_range (use_cache : Bool) (cache : CacheLookup)
    (llm : LLMReply)
    (hcache : ∀ p, cache = CacheLookup.found p →
      penaltyInRange (p.getD (PyVal.num 0))) :
    penaltyInRange (calculate_integrity_penalty_async use_cache cache llm) ∧
      calculate_integrity_penalty.1 = 0 := by
  refine ⟨?_, rfl⟩
  have hllm : ∀ q, integrity_penalty_llm llm = some q → -(1/2) ≤ q ∧ q ≤ 0 := by
    intro q hq
    cases llm with
    | unavailable => simp [integrity_penalty_llm] at hq
    | failure => simp [integrity_penalty_llm] at hq
    | response p =>
        rcases hp : p.getD (PyVal.num 0) with q' | tag
        · simp only [integrity_penalty_llm, hp] at hq
          split at hq
          · next h => exact Option.some_inj.mp hq ▸ h
          · next h =>
              cases hq
              constructor
              · exact le_max_left _ _
              · exact max_le (by norm_num) (min_le_left _ _)
        · simp only [integrity_penalty_llm, hp] at hq
          exact Option.noConfusion hq
  cases use_cache with
  | false =>
      simp only [calculate_integrity_penalty_async, Bool.false_eq_true, if_false]
      cases h : integrity_penalty_llm llm with
      | none => exact ⟨by norm_num, le_refl 0⟩
      | some q => exact hllm q h
  | true =>
      simp only [calculate_integrity_penalty_async, if_true]
      cases cache with
      | malformed => exact ⟨by norm_num, le_refl 0⟩
      | found p => exact hcache p rfl
      | absent =>
          cases h : integrity_penalty_llm llm with
          | none => exact ⟨by norm_num, le_refl 0⟩
          | some q => exact hllm q h

/-- Witness for `integrity_penalty_in_range`: no cache entry, LLM replying
with the adversarial out-of-range penalty `7.0`. -/
theorem integrity_penalty_in_range_witness :
    penaltyInRange
      (calculate_integrity_penalty_async true CacheLookup.absent
        (LLMReply.response (some (PyVal.num 7)))) ∧
      calculate_integrity_penalty.1 = 0 :=
  integrity_penalty_in_range true CacheLookup.absent
    (LLMReply.response (some (PyVal.num 7))) (by intro p h; cases h)

/-- Per-topic outcome of the scoring step inside the `score_topics` loop
(topic_scoring_job.py lines 126-217): either the topic's scoring raised (the
exception is caught, the topic recorded as a failure, and the loop
continues), or a score was computed with the given actual LLM cost
(`cost_info.total_cost_usd`, `0.0` when absent). -/
inductive ScoreOutcome where
  | failed
  | scored (cost : ℚ)
deriving DecidableEq

/-- The `for topic in topics` loop of `TopicScoringJob.score_topics`
(topic_scoring_job.py lines 126-217), with `n = len(topics)` and the
hard-coded `estimated_cost_per_topic = 0.002`.  With LLM enabled, before each
topic the projected cost `total_cost + 0.002 * (len(topics) - len(scores))`
is checked against the budget and the loop breaks when it is exceeded; after
a topic is scored the now-exact cumulative cost is re-checked, breaking
before the score is appended.  The returned list holds the positions of the
topics whose scores were computed and appended. -/
def scoreLoop (use_llm : Bool) (budget : ℚ) (n : ℕ) :
    List ScoreOutcome → ℕ → ℚ → List ℕ → List ℕ
  | [], _, _, scores => scores
  | o :: rest, idx, total_cost, scores =>
      if use_llm then
        if budget < total_cost + (1/500) * ((n : ℚ) - (scores.length : ℚ)) then
          scores
        else
          match o with
          | ScoreOutcome.failed =>
              scoreLoop use_llm budget n rest (idx + 1) total_cost scores
          | ScoreOutcome.scored c =>
              if budget < total_cost + c then scores
              else
                scoreLoop use_llm budget n rest (idx + 1) (total_cost + c)
                  (scores ++ [idx])
      else
        match o with
        | ScoreOutcome.failed =>
            scoreLoop use_llm budget n rest (idx + 1) total_cost scores
        | ScoreOutcome.scored _ =>
            scoreLoop use_llm budget n rest (idx + 1) total_cost (scores ++ [idx])

/-- `TopicScoringJob.score_topics` (topic_scoring_job.py lines 99-226):
empty input returns `[]`; otherwise the scoring loop runs with a fresh
`scores = []` and `total_cost = 0.0`.  Per-topic exceptions are caught inside
the loop, so the function always returns the (possibly partial) score list
and never raises. -/
def score_topics (use_llm : Bool) (budget : ℚ)
    (outcomes : List ScoreOutcome) : List ℕ :=
  if outcomes = [] then []
  else scoreLoop use_llm budget outcomes.length outcomes 0 0 []

/-- C4: scoring a batch of 10 topics with LLM enabled under a per-run cost
ceiling of `$0.01` and a per-topic estimated cost of `$0.002` stops after at
most 5 topics scored (here the projected-cost check already trips on the
first topic, so in fact none are), returning the partial list instead of
raising. -/
theorem cost_guard_early_stop (outcomes : List ScoreOutcome)
    (h : outcomes.length = 10) :
    (score_topics true (1/100) outcomes).length ≤ 5 := by
  cases outcomes with
  | nil => simp at h
  | cons o rest =>
      have hr : rest.length = 9 := by simpa using h
      simp only [score_topics, scoreLoop, reduceCtorEq, if_false, if_true,
        List.length_cons, List.length_nil, hr]
      norm_num

/-- Witness for `cost_guard_early_stop` at a concrete batch of 10 topics. -/
theorem cost_guard_early_stop_witness :
    (score_topics true (1/100) (List.replicate 10 ScoreOutcome.failed)).length ≤ 5 :=
  cost_guard_early_stop (List.replicate 10 ScoreOutcome.failed) (by simp)

/-- The slice of a topic's `raw_payload` read by
`ScoringService.extract_engagement`: per-platform integer counters, each
possibly absent or `None` (both handled by `payload.get(k, 0) or 0`). -/
structure RawPayload where
  score : Option ℤ
  num_comments : Option ℤ
  descendants : Option ℤ

/-- The fields of a `TopicCandidate` read by the scoring components modelled
here.  `created_at` is a POSIX timestamp in seconds (`none` models a missing
timestamp); the timezone normalization of the source is a no-op on absolute
timestamps. -/
structure TopicCandidate where
  id : String
  source_platform : String
  raw_payload : RawPayload
  created_at : Option ℝ

/-- `ScoringService.extract_engagement` (scoring_service.py lines 212-247):
Reddit combines `score` with `int(num_comments * 0.1)`, Hacker News combines
`score` with `int(descendants * 0.1)`, both floored at 0; every other
platform yields 0.  Python's `int(c * 0.1)` truncates toward zero, modelled
by `Int.div c 10` (T-division). -/
def extract_engagement (t : TopicCandidate) : ℤ :=
  if t.source_platform = "reddit" then
    max 0 (t.raw_payload.score.getD 0 + Int.tdiv (t.raw_payload.num_comments.getD 0) 10)
  else if t.source_platform = "hackernews" then
    max 0 (t.raw_payload.score.getD 0 + Int.tdiv (t.raw_payload.descendants.getD 0) 10)
  else 0

/-- The same-platform peer list `platform_topics = [t for t in all_topics if
t.source_platform == platform]` (scoring_service.py line 276). -/
def platformPeers (t : TopicCandidate) (all_topics : List TopicCandidate) :
    List TopicCandidate :=
  all_topics.filter (fun u => u.source_platform == t.source_platform)

/-- The log-normalization mode shared by the "single topic from platform" and
"no peer set" paths of `calculate_velocity` (scoring_service.py lines
277-286 and 300-312): `min(1, log10(engagement + 1) / log10(max + 1))` with
`max = self.platform_max.get(platform, 100)`, or `0.0` when that ceiling is
non-positive. -/
noncomputable def log_normalized_velocity (svc : ScoringService)
    (platform : String) (engagement : ℤ) : ℝ :=
  let max_engagement := (svc.platform_max platform).getD 100
  if max_engagement ≤ 0 then 0
  else min 1 (Real.logb 10 ((engagement : ℝ) + 1) /
    Real.logb 10 ((max_engagement : ℝ) + 1))

/-- The rank used by percentile velocity: the number of same-batch peers with
strictly lower engagement (`sum(1 for e in platform_engagements if e <
engagement)`, scoring_service.py line 293). -/
def rankOf (t : TopicCandidate) (l : List TopicCandidate) : ℕ :=
  l.countP (fun u => decide (extract_engagement u < extract_engagement t))

/-- `ScoringService.calculate_velocity` (scoring_service.py lines 249-316),
real-valued (the score component of the returned pair).  Non-positive
engagement yields 0; with a non-empty peer batch, exactly one same-platform
peer selects log-normalization and two or more select percentile mode
(`rank / (peer_count - 1) * 100`, then divided by 100); zero same-platform
peers, like an absent batch, fall through to log-normalization. -/
noncomputable def calculate_velocity (svc : ScoringService) (t : TopicCandidate)
    (all_topics : List TopicCandidate) : ℝ :=
  let engagement := extract_engagement t
  if engagement ≤ 0 then 0
  else if all_topics.isEmpty then
    log_normalized_velocity svc t.source_platform engagement
  else
    let platform_topics := platformPeers t all_topics
    if platform_topics.length = 1 then
      log_normalized_velocity svc t.source_platform engagement
    else if 1 < platform_topics.length then
      let platform_engagements :=
        (platform_topics.map extract_engagement).mergeSort (fun a b => decide (a ≤ b))
      let rank := platform_engagements.countP (fun e => decide (e < engagement))
      ((rank : ℝ) / ((platform_engagements.length - 1 : ℕ) : ℝ) * 100) / 100
    else log_normalized_velocity svc t.source_platform engagement

/-- In percentile mode the velocity equals `rank / (peer_count - 1)`
exactly: sorting is a permutation, so the strict-lower count over the sorted
engagement list is `rankOf`. -/
theorem calculate_velocity_percentile (svc : ScoringService)
    (t : TopicCandidate) (peers : List TopicCandidate)
    (hmem : t ∈ peers) (hcnt : 1 < (platformPeers t peers).length)
    (hpos : 0 < extract_engagement t) :
    calculate_velocity svc t peers
      = (rankOf t (platformPeers t peers) : ℝ) /
          (((platformPeers t peers).length - 1 : ℕ) : ℝ) := by
  have hne : peers ≠ [] := by
    intro h
    rw [h] at hmem
    cases hmem
  have hperm := List.mergeSort_perm ((platformPeers t peers).map extract_engagement)
    (fun a b => decide (a ≤ b))
  simp only [calculate_velocity]
  rw [if_neg (not_le.mpr hpos)]
  rw [if_neg (by simp [hne] : ¬ peers.isEmpty = true)]
  rw [if_neg (by omega : ¬ (platformPeers t peers).length = 1)]
  rw [if_pos hcnt]
  rw [hperm.countP_eq, List.countP_map, hperm.length_eq, List.length_map]
  rw [mul_div_cancel_right₀ _ (by norm_num : (100 : ℝ) ≠ 0)]
  rfl

/-- Counting helper: in a peer list with pairwise-distinct engagements that
contains `t`, with every other peer strictly below `t`, the strict-lower
count is the list length minus one. -/
theorem rankOf_of_top (t : TopicCandidate) (l : List TopicCandidate)
    (hpw : l.Pairwise (fun u v => extract_engagement u ≠ extract_engagement v))
    (hmem : t ∈ l)
    (hmax : ∀ u ∈ l, u ≠ t → extract_engagement u < extract_engagement t) :
    rankOf t l = l.length - 1 := by
  induction l with
  | nil => cases hmem
  | cons x xs ih =>
      rcases List.pairwise_cons.mp hpw with ⟨hx, hxs⟩
      by_cases hxt : x = t
      · subst hxt
        have hall : ∀ u ∈ xs, extract_engagement u < extract_engagement x := by
          intro u hu
          rcases eq_or_ne u x with h | h
          · exact absurd rfl (h ▸ hx u hu)
          · exact hmax u (List.mem_cons_of_mem _ hu) h
        have htl : xs.countP
            (fun u => decide (extract_engagement u < extract_engagement x))
            = xs.length :=
          List.countP_eq_length.mpr (fun u hu => decide_eq_true (hall u hu))
        unfold rankOf
        rw [List.countP_cons, htl]
        simp
      · have hmem' : t ∈ xs := by
          rcases List.mem_cons.mp hmem with h | h
          · exact absurd h.symm hxt
          · exact h
        have ih' := ih hxs hmem'
          (fun u hu hut => hmax u (List.mem_cons_of_mem _ hu) hut)
        have hxlt : extract_engagement x < extract_engagement t :=
          hmax x (List.mem_cons_self _ _) hxt
        have hlen : 1 ≤ xs.length := by
          cases xs with
          | nil => cases hmem'
          | cons y ys => simp
        unfold rankOf at ih' ⊢
        rw [List.countP_cons, decide_eq_true hxlt]
        simp only [List.length_cons, if_true]
        omega

/-- Counting helper: when every other peer is strictly above `t`, nothing is
strictly below `t`. -/
theorem rankOf_of_bottom (t : TopicCandidate) (l : List TopicCandidate)
    (hmin : ∀ u ∈ l, u ≠ t → extract_engagement t < extract_engagement u) :
    rankOf t l = 0 :=
  List.countP_eq_zero.mpr (fun u hu => by
    simp only [decide_eq_true_eq]
    rcases eq_or_ne u t with h | h
    · subst h
      exact lt_irrefl _
    · exact lt_asymm (hmin u hu h))

/-- C6: in percentile mode (a peer batch with at least two same-platform
topics carrying pairwise-distinct positive engagements) the velocity is
exactly `rank / (peer_count - 1)` where `rank` counts the peers with
strictly lower engagement; the maximum-engagement topic gets exactly `1.0`
and the minimum gets exactly `0.0`. -/
theorem velocity_percentile_extremes (svc : ScoringService)
    (t : TopicCandidate) (peers : List TopicCandidate)
    (hmem : t ∈ peers) (hcnt : 2 ≤ (platformPeers t peers).length)
    (hpos : ∀ u ∈ platformPeers t peers, 0 < extract_engagement u)
    (hdist : (platformPeers t peers).Pairwise
      (fun u v => extract_engagement u ≠ extract_engagement v)) :
    calculate_velocity svc t peers
        = (rankOf t (platformPeers t peers) : ℝ) /
            (((platformPeers t peers).length - 1 : ℕ) : ℝ)
      ∧ ((∀ u ∈ platformPeers t peers, u ≠ t →
            extract_engagement u < extract_engagement t) →
          calculate_velocity svc t peers = 1)
      ∧ ((∀ u ∈ platformPeers t peers, u ≠ t →
            extract_engagement t < extract_engagement u) →
          calculate_velocity svc t peers = 0) := by
  have htpp : t ∈ platformPeers t peers :=
    List.mem_filter.mpr ⟨hmem, by simp⟩
  have hformula := calculate_velocity_percentile svc t peers hmem
    (by omega) (hpos t htpp)
  refine ⟨hformula, ?_, ?_⟩
  · intro hmax
    rw [hformula, rankOf_of_top t _ hdist htpp hmax]
    exact div_self (Nat.cast_ne_zero.mpr (by omega))
  · intro hmin
    rw [hformula, rankOf_of_bottom t _ hmin]
    simp

/-- A concrete high-engagement Reddit topic (score 990). -/
def topicHi : TopicCandidate :=
  { id := "hi", source_platform := "reddit",
    raw_payload := { score := some 990, num_comments := none, descendants := none },
    created_at := none }

/-- A concrete low-engagement Reddit topic (score 10). -/
def topicLo : TopicCandidate :=
  { id := "lo", source_platform := "reddit",
    raw_payload := { score := some 10, num_comments := none, descendants := none },
    created_at := none }

/-- Witness for `velocity_percentile_extremes`: two Reddit topics with
engagements 990 and 10 receive percentile velocities exactly 1 and 0. -/
theorem velocity_percentile_extremes_witness :
    calculate_velocity defaultService topicHi [topicHi, topicLo] = 1 ∧
      calculate_velocity defaultService topicLo [topicHi, topicLo] = 0 := by
  have hppHi : platformPeers topicHi [topicHi, topicLo] = [topicHi, topicLo] := rfl
  have hppLo : platformPeers topicLo [topicHi, topicLo] = [topicHi, topicLo] := rfl
  constructor
  · refine (velocity_percentile_extremes defaultService topicHi [topicHi, topicLo]
      (by simp) (by rw [hppHi]; simp) ?_ ?_).2.1 ?_
    · rw [hppHi]
      intro u hu
      simp only [List.mem_cons, List.not_mem_nil, or_false] at hu
      rcases hu with h | h <;> subst h <;> decide
    · rw [hppHi]
      refine List.Pairwise.cons ?_ (List.pairwise_singleton _ _)
      intro u hu
      simp only [List.mem_cons, List.not_mem_nil, or_false] at hu
      subst hu
      decide
    · rw [hppHi]
      intro u hu hne
      simp only [List.mem_cons, List.not_mem_nil, or_false] at hu
      rcases hu with h | h
      · exact absurd h hne
      · subst h
        decide
  · refine (velocity_percentile_extremes defaultService topicLo [topicHi, topicLo]
      (by simp) (by rw [hppLo]; simp) ?_ ?_).2.2 ?_
    · rw [hppLo]
      intro u hu
      simp only [List.mem_cons, List.not_mem_nil, or_false] at hu
      rcases hu with h | h <;> subst h <;> decide
    · rw [hppLo]
      refine List.Pairwise.cons ?_ (List.pairwise_singleton _ _)
      intro u hu
      simp only [List.mem_cons, List.not_mem_nil, or_false] at hu
      subst hu
      decide
    · rw [hppLo]
      intro u hu hne
      simp only [List.mem_cons, List.not_mem_nil, or_false] at hu
      rcases hu with h | h
      · subst h
        decide
      · exact absurd h hne

/-- `ScoringService.calculate_recency` (scoring_service.py lines 145-210),
real-valued (the score component of the returned pair).  A missing timestamp
becomes "now", a future timestamp is clamped to "now", negative elapsed
hours are clamped to 0, and `exp(-(ln 2 / 24) * hours_old)` is clamped to
`[0, 1]` with `max(0.0, min(1.0, recency))`. -/
noncomputable def calculate_recency (now : ℝ) (t : TopicCandidate) : ℝ :=
  let timestamp := t.created_at.getD now
  let clamped := if now < timestamp then now else timestamp
  let hours_old := (now - clamped) / 3600
  let hours_nonneg := if hours_old < 0 then 0 else hours_old
  max 0 (min 1 (Real.exp (-(Real.log 2 / 24) * hours_nonneg)))

/-- For a past timestamp the clamps are inactive, leaving the bare
exponential decay. -/
theorem calculate_recency_eq_exp (now a : ℝ) (t : TopicCandidate)
    (ht : t.created_at = some a) (ha : a ≤ now) :
    calculate_recency now t
      = Real.exp (-(Real.log 2 / 24) * ((now - a) / 3600)) := by
  have h0 : 0 ≤ (now - a) / 3600 := div_nonneg (sub_nonneg.mpr ha) (by norm_num)
  have hexp0 : -(Real.log 2 / 24) * ((now - a) / 3600) ≤ 0 := by
    rw [neg_mul]
    exact neg_nonpos.mpr (mul_nonneg
      (div_pos (Real.log_pos one_lt_two) (by norm_num)).le h0)
  simp only [calculate_recency, ht, Option.getD_some]
  rw [if_neg (not_lt.mpr ha), if_neg (not_lt.mpr h0),
    min_eq_right (Real.exp_le_one_iff.mpr hexp0),
    max_eq_right (Real.exp_pos _).le]

/-- C7: recency is strictly larger for the strictly younger of two topics
(both with past timestamps, evaluated at the same `now`), and a topic
exactly 24 hours old has recency exactly `1/2` (the 24-hour half-life). -/
theorem recency_monotone_and_halflife :
    (∀ (now a b : ℝ) (t u : TopicCandidate),
        t.created_at = some a → u.created_at = some b →
        a ≤ now → b ≤ now → b < a →
        calculate_recency now u < calculate_recency now t)
      ∧ (∀ (now : ℝ) (t : TopicCandidate),
          t.created_at = some (now - 24 * 3600) →
          calculate_recency now t = 1 / 2) := by
  constructor
  · intro now a b t u ht hu ha hb hba
    rw [calculate_recency_eq_exp now a t ht ha,
      calculate_recency_eq_exp now b u hu hb]
    apply Real.exp_lt_exp.mpr
    have hc : -(Real.log 2 / 24) < 0 :=
      neg_lt_zero.mpr (div_pos (Real.log_pos one_lt_two) (by norm_num))
    apply mul_lt_mul_of_neg_left _ hc
    exact (div_lt_div_iff_of_pos_right (by norm_num)).mpr (by linarith)
  · intro now t ht
    rw [calculate_recency_eq_exp now (now - 24 * 3600) t ht (by linarith)]
    have h24 : (now - (now - 24 * 3600)) / 3600 = 24 := by ring
    rw [h24]
    have harg : -(Real.log 2 / 24) * 24 = -Real.log 2 := by
      field_simp
    rw [harg, Real.exp_neg, Real.exp_log two_pos]
    norm_num

/-- A concrete engagement-free topic with an adjustable creation timestamp. -/
def sampleTopic (c : Option ℝ) : TopicCandidate :=
  { id := "t", source_platform := "rss",
    raw_payload := { score := none, num_comments := none, descendants := none },
    created_at := c }

/-- Witness for `recency_monotone_and_halflife`: a 1-hour-old topic beats a
2-hour-old topic, and a topic exactly 24 hours old scores `1/2`. -/
theorem recency_monotone_and_halflife_witness :
    calculate_recency 0 (sampleTopic (some (-7200)))
        < calculate_recency 0 (sampleTopic (some (-3600)))
      ∧ calculate_recency 0 (sampleTopic (some (0 - 24 * 3600))) = 1 / 2 :=
  ⟨recency_monotone_and_halflife.1 0 (-3600) (-7200)
      (sampleTopic (some (-3600))) (sampleTopic (some (-7200))) rfl rfl
      (by norm_num) (by norm_num) (by norm_num),
    recency_monotone_and_halflife.2 0 (sampleTopic (some (0 - 24 * 3600))) rfl⟩

/-- C9: `calculate_composite_score` never mutates the engine's persisted
weight configuration — the weights field is identical before and after every
call, including calls that trigger local normalization. -/
theorem composite_score_preserves_weights (svc : ScoringService) (r v a ip : ℚ) :
    (calculate_composite_score svc r v a ip).1.weights = svc.weights :=
  rfl

/-- The `human_action` payload of an audit event (topic_reviewer.py lines
394-402). -/
structure HumanAction where
  selected_ids : List String
  rejected_ids : List String
  deferred_ids : List String
  reason_code : Option String
  notes : Option String
deriving DecidableEq

/-- The latest score snapshot fetched for the audit's `system_decision`
payload, reduced to the composite score; the component/reasoning/weight
subfields copied alongside it are irrelevant to every claim. -/
structure ScoreDoc where
  score : ℚ
deriving DecidableEq

/-- An audit event document (topic_reviewer.py lines 404-413). -/
structure AuditEvent where
  id : String
  stage : String
  topic_id : String
  content_id : Option String
  system_decision : Option ScoreDoc
  human_action : HumanAction
  actor : String
  created_at : String
deriving DecidableEq

/-- The audit event built by `TopicReviewer._update_topic_status`
(topic_reviewer.py lines 394-413): `nowIso` stands for the
`datetime.now(timezone.utc).isoformat()` string and `latest` for the newest
score snapshot found for the topic (`None` when there is none). -/
def mkAuditEvent (topicId status : String) (reason notes : Option String)
    (latest : Option ScoreDoc) (nowIso : String) : AuditEvent :=
  { id := "audit_" ++ topicId ++ "_" ++ nowIso,
    stage := "topic_selection",
    topic_id := topicId,
    content_id := none,
    system_decision := latest,
    human_action :=
      { selected_ids := if status = "approved" then [topicId] else [],
        rejected_ids := if status = "rejected" then [topicId] else [],
        deferred_ids := if status = "deferred" then [topicId] else [],
        reason_code := reason,
        notes := notes },
    actor := "cli-user",
    created_at := nowIso }

/-- The document store as seen by the reviewer: the topic-candidates
collection reduced to each document's mutable `status` field (`none` models
a missing/`None` status field), plus the append-only audit-events
collection. -/
structure Store where
  topics : List (String × Option String)
  audit_events : List AuditEvent
deriving DecidableEq

/-- Status lookup in the topic collection (`firestore.get_document` followed
by `topic_data.get("status")`): `none` when the document is absent. -/
def lookupStatus (l : List (String × Option String)) (topicId : String) :
    Option (Option String) :=
  (l.find? (fun kv => kv.1 == topicId)).map (fun kv => kv.2)

/-- `getTopicStatus` on a full store. -/
def getTopicStatus (s : Store) (topicId : String) : Option (Option String) :=
  lookupStatus s.topics topicId

/-- `firestore.set_document` writing back the topic with its `status` field
replaced; all other document fields are untouched by the reviewer. -/
def setTopicStatus (l : List (String × Option String)) (topicId : String)
    (status : Option String) : List (String × Option String) :=
  l.map (fun kv => if kv.1 == topicId then (kv.1, status) else kv)

/-- The store after the status write plus the audit-event append performed
by `_update_topic_status` when the transition goes through. -/
def appliedStore (st : Store) (topicId status : String)
    (reason notes : Option String) (latest : Option ScoreDoc)
    (nowIso : String) : Store :=
  { topics := setTopicStatus st.topics topicId (some status),
    audit_events :=
      st.audit_events ++ [mkAuditEvent topicId status reason notes latest nowIso] }

/-- `TopicReviewer._update_topic_status` (topic_reviewer.py lines 330-417)
on a failure-free store, returning the updated store together with whether
the interactive override prompt was displayed.  The current topic is
fetched; a missing topic raises `ValueError` (modelled by `.error`).  When
the persisted status is no longer `"pending"` and the target is not
`"deferred"`, the override prompt is shown and a declined override returns
early — without writing and without an audit event, but also without
raising.  Otherwise (still pending, or target `"deferred"`, or override
confirmed) the status is written and exactly one audit event is appended.
The 3-attempt retry loop collapses to its first, successful iteration, and
the best-effort audit write (exceptions logged, not propagated) is modelled
as succeeding. -/
def updateTopicStatus (overrideConfirm : Bool) (st : Store)
    (topicId status : String) (reason notes : Option String)
    (latest : Option ScoreDoc) (nowIso : String) :
    Except String (Store × Bool) :=
  match getTopicStatus st topicId with
  | none => Except.error ("Topic " ++ topicId ++ " not found")
  | some current =>
      if current ≠ some "pending" ∧ status ≠ "deferred" then
        if overrideConfirm then
          Except.ok (appliedStore st topicId status reason notes latest nowIso, true)
        else
          Except.ok (st, true)
      else
        Except.ok (appliedStore st topicId status reason notes latest nowIso, false)

/-- The per-outcome session counters (`self.stats`), integer-valued since
Python decrements freely. -/
structure Stats where
  approved : ℤ
  rejected : ℤ
  deferred : ℤ
  skipped : ℤ
deriving DecidableEq

/-- Read a counter by its status key (0 for an unknown key). -/
def getStat (s : Stats) (k : String) : ℤ :=
  if k = "approved" then s.approved
  else if k = "rejected" then s.rejected
  else if k = "deferred" then s.deferred
  else if k = "skipped" then s.skipped
  else 0

/-- `self.stats[k] += d` for the four known keys. -/
def bumpStat (s : Stats) (k : String) (d : ℤ) : Stats :=
  if k = "approved" then { s with approved := s.approved + d }
  else if k = "rejected" then { s with rejected := s.rejected + d }
  else if k = "deferred" then { s with deferred := s.deferred + d }
  else if k = "skipped" then { s with skipped := s.skipped + d }
  else s

/-- The single retained undo slot (`self.last_action`, topic_reviewer.py
lines 318-323): `old_status` is the status field of the in-memory topic dict
shown to the reviewer. -/
structure LastAction where
  topic_id : String
  old_status : Option String
  new_status : String
  action : String
deriving DecidableEq

/-- The reviewer session state: store handle, counters, processed-ID set
(modelled as a duplicate-free list) and the undo slot. -/
structure ReviewerState where
  store : Store
  stats : Stats
  processed_ids : List String
  last_action : Option LastAction
deriving DecidableEq

/-- The `{"a": "approved", "r": "rejected", "d": "deferred"}` lookup
(topic_reviewer.py line 310). -/
def newStatusOf (actionLower : String) : String :=
  if actionLower = "a" then "approved"
  else if actionLower = "r" then "rejected"
  else "deferred"

/-- The decision branch of `TopicReviewer._review_topic` (topic_reviewer.py
lines 309-328) for an approve/reject/defer action: when
`_update_topic_status` returns normally — which includes a declined
override — the counter for the new status is incremented, the topic ID is
added to the processed set, and the action is stored for undo; when it
raises, the error is printed and none of those updates happen. -/
def processDecision (overrideConfirm : Bool) (s : ReviewerState)
    (topicId : String) (memStatus : Option String) (actionLower : String)
    (reason notes : Option String) (latest : Option ScoreDoc)
    (nowIso : String) : ReviewerState :=
  let new_status := newStatusOf actionLower
  match updateTopicStatus overrideConfirm s.store topicId new_status reason
      notes latest nowIso with
  | Except.error _ => s
  | Except.ok (store2, _) =>
      { store := store2,
        stats := bumpStat s.stats new_status 1,
        processed_ids :=
          if topicId ∈ s.processed_ids then s.processed_ids
          else s.processed_ids ++ [topicId],
        last_action := some
          { topic_id := topicId, old_status := memStatus,
            new_status := new_status, action := actionLower } }

/-- `TopicReviewer._undo_last_action` (topic_reviewer.py lines 419-451) on a
failure-free store: with no retained action, or with the confirmation
declined, nothing changes; otherwise the topic's status field is rewritten
to the remembered `old_status` (when the document still exists), the counter
for the undone status is decremented, the topic ID is discarded from the
processed set, and the undo slot is cleared.  The audit collection is never
touched. -/
def undoLastAction (confirm : Bool) (s : ReviewerState) : ReviewerState :=
  match s.last_action with
  | none => s
  | some a =>
      if confirm then
        let store2 :=
          match getTopicStatus s.store a.topic_id with
          | some _ =>
              { s.store with
                topics := setTopicStatus s.store.topics a.topic_id a.old_status }
          | none => s.store
        { store := store2,
          stats := bumpStat s.stats a.new_status (-1),
          processed_ids := s.processed_ids.erase a.topic_id,
          last_action := none }
      else s

/-- When the transition goes through (topic still pending, or target
deferred, or override confirmed), the write and the audit append happen, and
the prompt was shown exactly when the conflict check fired. -/
theorem updateTopicStatus_applied (oc : Bool) (st : Store)
    (topicId status : String) (reason notes : Option String)
    (latest : Option ScoreDoc) (nowIso : String) (current : Option String)
    (hget : getTopicStatus st topicId = some current)
    (happly : current = some "pending" ∨ status = "deferred" ∨ oc = true) :
    updateTopicStatus oc st topicId status reason notes latest nowIso
      = Except.ok (appliedStore st topicId status reason notes latest nowIso,
          decide (current ≠ some "pending" ∧ status ≠ "deferred")) := by
  simp only [updateTopicStatus, hget]
  by_cases h : current ≠ some "pending" ∧ status ≠ "deferred"
  · have hoc : oc = true := by
      rcases happly with h1 | h2 | h3
      · exact absurd h1 h.1
      · exact absurd h2 h.2
      · exact h3
    subst hoc
    rw [if_pos h, decide_eq_true h]
    simp
  · rw [if_neg h, decide_eq_false h]

/-- A declined override returns normally with the store untouched, after
showing the prompt. -/
theorem updateTopicStatus_declined (st : Store) (topicId status : String)
    (reason notes : Option String) (latest : Option ScoreDoc)
    (nowIso : String) (current : Option String)
    (hget : getTopicStatus st topicId = some current)
    (hcur : current ≠ some "pending") (hst : status ≠ "deferred") :
    updateTopicStatus false st topicId status reason notes latest nowIso
      = Except.ok (st, true) := by
  simp only [updateTopicStatus, hget]
  rw [if_pos ⟨hcur, hst⟩]
  simp

/-- A missing topic raises `ValueError`. -/
theorem updateTopicStatus_missing (oc : Bool) (st : Store)
    (topicId status : String) (reason notes : Option String)
    (latest : Option ScoreDoc) (nowIso : String)
    (hget : getTopicStatus st topicId = none) :
    updateTopicStatus oc st topicId status reason notes latest nowIso
      = Except.error ("Topic " ++ topicId ++ " not found") := by
  simp only [updateTopicStatus, hget]

/-- Status lookup after a status write: the write changes exactly the stored
value of the written topic, preserving document existence. -/
theorem lookupStatus_set (l : List (String × Option String))
    (topicId : String) (v : Option String) :
    lookupStatus (setTopicStatus l topicId v) topicId
      = (lookupStatus l topicId).map (fun _ => v) := by
  induction l with
  | nil => rfl
  | cons kv rest ih =>
      obtain ⟨k, w⟩ := kv
      simp only [setTopicStatus, List.map_cons]
      by_cases hk : k == topicId
      · simp [lookupStatus, List.find?_cons_of_pos, hk]
      · simp only [if_neg hk]
        have h1 : List.find? (fun kv : String × Option String => kv.1 == topicId)
            ((k, w) :: setTopicStatus rest topicId v)
            = List.find? (fun kv => kv.1 == topicId) (setTopicStatus rest topicId v) :=
          List.find?_cons_of_neg _ hk
        have h2 : List.find? (fun kv : String × Option String => kv.1 == topicId)
            ((k, w) :: rest)
            = List.find? (fun kv => kv.1 == topicId) rest :=
          List.find?_cons_of_neg _ hk
        show Option.map _ (List.find? _ ((k, w) :: setTopicStatus rest topicId v))
          = Option.map _ (Option.map _ (List.find? _ ((k, w) :: rest)))
        rw [h1, h2]
        exact ih

/-- The session-state effect of a transition that goes through. -/
theorem processDecision_applied (oc : Bool) (s : ReviewerState)
    (topicId : String) (memStatus : Option String) (actionLower : String)
    (reason notes : Option String) (latest : Option ScoreDoc)
    (nowIso : String) (current : Option String)
    (hget : getTopicStatus s.store topicId = some current)
    (happly : current = some "pending" ∨ newStatusOf actionLower = "deferred" ∨
      oc = true) :
    processDecision oc s topicId memStatus actionLower reason notes latest nowIso
      = { store := appliedStore s.store topicId (newStatusOf actionLower)
            reason notes latest nowIso,
          stats := bumpStat s.stats (newStatusOf actionLower) 1,
          processed_ids :=
            if topicId ∈ s.processed_ids then s.processed_ids
            else s.processed_ids ++ [topicId],
          last_action := some
            { topic_id := topicId, old_status := memStatus,
              new_status := newStatusOf actionLower, action := actionLower } } := by
  simp only [processDecision]
  rw [updateTopicStatus_applied oc s.store topicId (newStatusOf actionLower)
    reason notes latest nowIso current hget happly]

/-- Reading a counter straight after bumping it adds the delta (for the four
known status keys). -/
theorem getStat_bumpStat (st : Stats) (k : String) (d : ℤ)
    (hk : k = "approved" ∨ k = "rejected" ∨ k = "deferred" ∨ k = "skipped") :
    getStat (bumpStat st k d) k = getStat st k + d := by
  rcases hk with h | h | h | h <;> subst h <;> simp [getStat, bumpStat]

/-- The status lookup table maps every action onto one of the three
transition statuses. -/
theorem newStatusOf_mem (al : String) :
    newStatusOf al = "approved" ∨ newStatusOf al = "rejected" ∨
      newStatusOf al = "deferred" := by
  unfold newStatusOf
  split
  · exact Or.inl rfl
  · split
    · exact Or.inr (Or.inl rfl)
    · exact Or.inr (Or.inr rfl)

/-- A store holding one topic whose persisted status is already
`"approved"`. -/
def overrideStore : Store :=
  { topics := [("t1", some "approved")], audit_events := [] }

/-- C1 counterexample: on a topic whose persisted status is `"approved"`
(not pending), a transition to `"deferred"` writes the new status with NO
confirmation prompt (the prompt flag is `false`), and the outcome is
identical whether the operator input would have confirmed or declined — the
operator is never consulted. -/
theorem deferred_writes_without_prompt :
    updateTopicStatus false overrideStore "t1" "deferred" none none none "T0"
        = Except.ok
            (appliedStore overrideStore "t1" "deferred" none none none "T0", false)
      ∧ updateTopicStatus true overrideStore "t1" "deferred" none none none "T0"
        = Except.ok
            (appliedStore overrideStore "t1" "deferred" none none none "T0", false) :=
  ⟨rfl, rfl⟩

/-- C1 (amended): a transition targeting `"deferred"` is written
unconditionally with no override prompt, regardless of the persisted
status; targets `"approved"`/`"rejected"` (any non-"deferred" target) on a
non-pending topic do show the interactive override prompt, and the write
happens exactly when the operator confirms. -/
theorem override_prompt_policy (oc : Bool) (st : Store)
    (topicId status : String) (reason notes : Option String)
    (latest : Option ScoreDoc) (nowIso : String) (current : Option String)
    (hget : getTopicStatus st topicId = some current) :
    (status = "deferred" →
      updateTopicStatus oc st topicId status reason notes latest nowIso
        = Except.ok
            (appliedStore st topicId status reason notes latest nowIso, false))
      ∧ (current ≠ some "pending" → status ≠ "deferred" →
          updateTopicStatus oc st topicId status reason notes latest nowIso
            = Except.ok
                ((if oc then
                    appliedStore st topicId status reason notes latest nowIso
                  else st), true)) := by
  constructor
  · intro hdef
    have h := updateTopicStatus_applied oc st topicId status reason notes latest
      nowIso current hget (Or.inr (Or.inl hdef))
    rwa [decide_eq_false (fun hc => hc.2 hdef)] at h
  · intro hcur hst
    cases oc with
    | false =>
        simpa using updateTopicStatus_declined st topicId status reason notes
          latest nowIso current hget hcur hst
    | true =>
        have h := updateTopicStatus_applied true st topicId status reason notes
          latest nowIso current hget (Or.inr (Or.inr rfl))
        rw [decide_eq_true ⟨hcur, hst⟩] at h
        simpa using h

/-- Witness for `override_prompt_policy`: declining the override of an
approve on an already-approved topic leaves the store untouched (the prompt
was shown). -/
theorem override_prompt_policy_witness :
    updateTopicStatus false overrideStore "t1" "approved" none none none "T0"
      = Except.ok (overrideStore, true) := by
  have h := (override_prompt_policy false overrideStore "t1" "approved" none
    none none "T0" (some "approved") rfl).2 (by decide) (by decide)
  simpa using h

/-- C5: every transition that goes through (still pending, target deferred,
or override confirmed) appends exactly one audit event, carrying the topic
ID, stage `"topic_selection"`, and the new status encoded in the
`human_action` ID lists (`selected_ids = [X]` for an approval of `X`); a
declined override and a missing topic append nothing. -/
theorem audit_pairing (oc : Bool) (st : Store) (topicId status : String)
    (reason notes : Option String) (latest : Option ScoreDoc)
    (nowIso : String) :
    (∀ current, getTopicStatus st topicId = some current →
      ((current = some "pending" ∨ status = "deferred" ∨ oc = true) →
        ∃ st2 shown,
          updateTopicStatus oc st topicId status reason notes latest nowIso
              = Except.ok (st2, shown)
            ∧ st2.audit_events = st.audit_events
                ++ [mkAuditEvent topicId status reason notes latest nowIso]
            ∧ (mkAuditEvent topicId status reason notes latest nowIso).topic_id
                = topicId
            ∧ (mkAuditEvent topicId status reason notes latest nowIso).stage
                = "topic_selection"
            ∧ (mkAuditEvent topicId status reason notes latest
                nowIso).human_action.selected_ids
                = (if status = "approved" then [topicId] else [])
            ∧ (mkAuditEvent topicId status reason notes latest
                nowIso).human_action.rejected_ids
                = (if status = "rejected" then [topicId] else [])
            ∧ (mkAuditEvent topicId status reason notes latest
                nowIso).human_action.deferred_ids
                = (if status = "deferred" then [topicId] else []))
        ∧ (current ≠ some "pending" → status ≠ "deferred" → oc = false →
            updateTopicStatus oc st topicId status reason notes latest nowIso
              = Except.ok (st, true)))
      ∧ (getTopicStatus st topicId = none →
          updateTopicStatus oc st topicId status reason notes latest nowIso
            = Except.error ("Topic " ++ topicId ++ " not found")) := by
  constructor
  · intro current hget
    constructor
    · intro happly
      exact ⟨_, _, updateTopicStatus_applied oc st topicId status reason notes
        latest nowIso current hget happly, rfl, rfl, rfl, rfl, rfl, rfl⟩
    · intro hcur hst hoc
      subst hoc
      exact updateTopicStatus_declined st topicId status reason notes latest
        nowIso current hget hcur hst
  · intro hget
    exact updateTopicStatus_missing oc st topicId status reason notes latest
      nowIso hget

/-- A store holding one still-pending topic. -/
def pendingStore : Store :=
  { topics := [("tX", some "pending")], audit_events := [] }

/-- Witness for `audit_pairing`: approving the pending topic `tX` appends
exactly one `topic_selection` audit event with `selected_ids = ["tX"]`. -/
theorem audit_pairing_witness :
    ∃ st2 shown,
      updateTopicStatus false pendingStore "tX" "approved" none none none "T1"
          = Except.ok (st2, shown)
        ∧ st2.audit_events = pendingStore.audit_events
            ++ [mkAuditEvent "tX" "approved" none none none "T1"]
        ∧ (mkAuditEvent "tX" "approved" none none none "T1").topic_id = "tX"
        ∧ (mkAuditEvent "tX" "approved" none none none "T1").stage
            = "topic_selection"
        ∧ (mkAuditEvent "tX" "approved" none none none
            "T1").human_action.selected_ids
            = (if "approved" = "approved" then ["tX"] else [])
        ∧ (mkAuditEvent "tX" "approved" none none none
            "T1").human_action.rejected_ids
            = (if "approved" = "rejected" then ["tX"] else [])
        ∧ (mkAuditEvent "tX" "approved" none none none
            "T1").human_action.deferred_ids
            = (if "approved" = "deferred" then ["tX"] else []) :=
  ((audit_pairing false pendingStore "tX" "approved" none none none
    "T1").1 (some "pending") rfl).1 (Or.inl rfl)

/-- C10: when an approve/reject on a non-pending topic has its override
declined, the store is left untouched (no status write, no audit event), yet
the session counter for the chosen action is still incremented, the topic ID
is still added to the processed set, and the declined action still becomes
the stored last undoable action. -/
theorem declined_override_session_effects (s : ReviewerState)
    (topicId : String) (memStatus : Option String) (actionLower : String)
    (reason notes : Option String) (latest : Option ScoreDoc)
    (nowIso : String) (current : Option String)
    (hget : getTopicStatus s.store topicId = some current)
    (hcur : current ≠ some "pending")
    (hact : actionLower = "a" ∨ actionLower = "r") :
    processDecision false s topicId memStatus actionLower reason notes latest
        nowIso
      = { store := s.store,
          stats := bumpStat s.stats (newStatusOf actionLower) 1,
          processed_ids :=
            if topicId ∈ s.processed_ids then s.processed_ids
            else s.processed_ids ++ [topicId],
          last_action := some
            { topic_id := topicId, old_status := memStatus,
              new_status := newStatusOf actionLower, action := actionLower } } := by
  have hst : newStatusOf actionLower ≠ "deferred" := by
    rcases hact with h | h <;> subst h <;> decide
  simp only [processDecision]
  rw [updateTopicStatus_declined s.store topicId (newStatusOf actionLower)
    reason notes latest nowIso current hget hcur hst]

/-- A fresh review session over `overrideStore`. -/
def reviewOverride : ReviewerState :=
  { store := overrideStore,
    stats := { approved := 0, rejected := 0, deferred := 0, skipped := 0 },
    processed_ids := [], last_action := none }

/-- Witness for `declined_override_session_effects` on the already-approved
topic `t1`. -/
theorem declined_override_session_effects_witness :
    processDecision false reviewOverride "t1" (some "approved") "a" none none
        none "T2"
      = { store := reviewOverride.store,
          stats := bumpStat reviewOverride.stats (newStatusOf "a") 1,
          processed_ids :=
            if "t1" ∈ reviewOverride.processed_ids then
              reviewOverride.processed_ids
            else reviewOverride.processed_ids ++ ["t1"],
          last_action := some
            { topic_id := "t1", old_status := some "approved",
              new_status := newStatusOf "a", action := "a" } } :=
  declined_override_session_effects reviewOverride "t1" (some "approved") "a"
    none none none "T2" (some "approved") rfl (by decide) (Or.inl rfl)

/-- C8: after a transition that went through (written from an in-memory
status matching the persisted one), a confirmed undo reverts the topic's
persisted status to its pre-transition value, decrements the counter of the
undone action by exactly 1, leaves the audit ledger byte-for-byte as the
transition left it — the transition's single appended event included, with
nothing new appended for the undo itself — and clears the single undo slot,
so a second undo is a no-op: only the most recent transition is undoable. -/
theorem undo_reverts_last_transition (oc : Bool) (s : ReviewerState)
    (topicId : String) (current : Option String) (actionLower : String)
    (reason notes : Option String) (latest : Option ScoreDoc)
    (nowIso : String) (s1 s2 : ReviewerState)
    (hget : getTopicStatus s.store topicId = some current)
    (happly : current = some "pending" ∨ newStatusOf actionLower = "deferred" ∨
      oc = true)
    (hs1 : s1 = processDecision oc s topicId current actionLower reason notes
      latest nowIso)
    (hs2 : s2 = undoLastAction true s1) :
    getTopicStatus s2.store topicId = some current
      ∧ getStat s2.stats (newStatusOf actionLower)
          = getStat s1.stats (newStatusOf actionLower) - 1
      ∧ s2.store.audit_events = s1.store.audit_events
      ∧ s1.store.audit_events = s.store.audit_events
          ++ [mkAuditEvent topicId (newStatusOf actionLower) reason notes
                latest nowIso]
      ∧ s2.last_action = none
      ∧ undoLastAction true s2 = s2 := by
  subst hs2
  subst hs1
  rw [processDecision_applied oc s topicId current actionLower reason notes
    latest nowIso current hget happly]
  have hget1 : getTopicStatus
      (appliedStore s.store topicId (newStatusOf actionLower) reason notes
        latest nowIso) topicId
      = some (some (newStatusOf actionLower)) := by
    show lookupStatus
      (setTopicStatus s.store.topics topicId (some (newStatusOf actionLower)))
      topicId = some (some (newStatusOf actionLower))
    rw [lookupStatus_set, show lookupStatus s.store.topics topicId
      = some current from hget]
    rfl
  have hundo : undoLastAction true
      { store := appliedStore s.store topicId (newStatusOf actionLower) reason
          notes latest nowIso,
        stats := bumpStat s.stats (newStatusOf actionLower) 1,
        processed_ids :=
          if topicId ∈ s.processed_ids then s.processed_ids
          else s.processed_ids ++ [topicId],
        last_action := some
          { topic_id := topicId, old_status := current,
            new_status := newStatusOf actionLower, action := actionLower } }
      = { store :=
            { appliedStore s.store topicId (newStatusOf actionLower) reason
                notes latest nowIso with
              topics := setTopicStatus
                (appliedStore s.store topicId (newStatusOf actionLower) reason
                  notes latest nowIso).topics topicId current },
          stats := bumpStat (bumpStat s.stats (newStatusOf actionLower) 1)
            (newStatusOf actionLower) (-1),
          processed_ids :=
            (if topicId ∈ s.processed_ids then s.processed_ids
              else s.processed_ids ++ [topicId]).erase topicId,
          last_action := none } := by
    simp only [undoLastAction, hget1]
    simp
  rw [hundo]
  refine ⟨?_, ?_, rfl, rfl, rfl, rfl⟩
  · show lookupStatus
      (setTopicStatus
        (setTopicStatus s.store.topics topicId
          (some (newStatusOf actionLower))) topicId current) topicId
      = some current
    rw [lookupStatus_set, lookupStatus_set, show lookupStatus s.store.topics
      topicId = some current from hget]
    rfl
  · rw [getStat_bumpStat (bumpStat s.stats (newStatusOf actionLower) 1)
      (newStatusOf actionLower) (-1)
      (by rcases newStatusOf_mem actionLower with h | h | h <;>
        [exact Or.inl h; exact Or.inr (Or.inl h); exact Or.inr (Or.inr (Or.inl h))])]
    rw [sub_eq_add_neg]

/-- A fresh review session over `pendingStore`. -/
def reviewPending : ReviewerState :=
  { store := pendingStore,
    stats := { approved := 0, rejected := 0, deferred := 0, skipped := 0 },
    processed_ids := [], last_action := none }

/-- Witness for `undo_reverts_last_transition`: approving the pending topic
`tX`, then confirming an undo. -/
theorem undo_reverts_last_transition_witness :
    getTopicStatus (undoLastAction true (processDecision false reviewPending
        "tX" (some "pending") "a" none none none "T4")).store "tX"
        = some (some "pending")
      ∧ getStat (undoLastAction true (processDecision false reviewPending "tX"
            (some "pending") "a" none none none "T4")).stats (newStatusOf "a")
          = getStat (processDecision false reviewPending "tX" (some "pending")
              "a" none none none "T4").stats (newStatusOf "a") - 1
      ∧ (undoLastAction true (processDecision false reviewPending "tX"
            (some "pending") "a" none none none "T4")).store.audit_events
          = (processDecision false reviewPending "tX" (some "pending") "a"
              none none none "T4").store.audit_events
      ∧ (processDecision false reviewPending "tX" (some "pending") "a" none
            none none "T4").store.audit_events
          = reviewPending.store.audit_events
              ++ [mkAuditEvent "tX" (newStatusOf "a") none none none "T4"]
      ∧ (undoLastAction true (processDecision false reviewPending "tX"
            (some "pending") "a" none none none "T4")).last_action = none
      ∧ undoLastAction true (undoLastAction true (processDecision false
            reviewPending "tX" (some "pending") "a" none none none "T4"))
          = undoLastAction true (processDecision false reviewPending "tX"
              (some "pending") "a" none none none "T4") :=
  undo_reverts_last_transition false reviewPending "tX" (some "pending") "a"
    none none none "T4"
    (processDecision false reviewPending "tX" (some "pending") "a" none none
      none "T4")
    (undoLastAction true (processDecision false reviewPending "tX"
      (some "pending") "a" none none none "T4"))
    rfl (Or.inl rfl) rfl rfl

end ContentEngine
